import Mathlib

/-
  Verification of the data-transducers streaming engine.

  The development shallowly embeds the core of the repository:
  - `Ext` and its algebra (source: src/ext_value.rs),
  - the streaming-transducer combinators epsilon / atom / union / parcomp /
    concat / iterate / aggregate / top (source: src/qre.rs), modelled as
    records of pure state-passing functions,
  - the explicit `DataTransducer` state machine and its epsilon-closure
    worklist algorithm (source: src/state_machine.rs).

  Rust's in-place mutation becomes explicit state passing; Rust panics
  (assert!, debug_assert!, unimplemented!, out-of-range Vec indexing) become
  `Option`-valued results, with `Option.none` marking an abort.  Behavior
  that differs between debug and release builds (debug_assert!) is modelled
  by an explicit `debug : Bool` parameter.
-/

namespace DataTransducers

/-! ## Extended values `Ext<T>` (src/ext_value.rs) -/

inductive Ext (T : Type) where
  | none : Ext T
  | one (t : T) : Ext T
  | many : Ext T
deriving DecidableEq, Repr

namespace Ext

/-- `Ext::is_none` (src/ext_value.rs). -/
def is_none {T : Type} : Ext T → Bool
  | .none => true
  | _ => false

/-- `Ext::is_one` (src/ext_value.rs). -/
def is_one {T : Type} : Ext T → Bool
  | .one _ => true
  | _ => false

/-- `Ext::is_many` (src/ext_value.rs). -/
def is_many {T : Type} : Ext T → Bool
  | .many => true
  | _ => false

/-- `Ext::to_unit` (src/ext_value.rs). -/
def to_unit {T : Type} : Ext T → Ext Unit
  | .none => .none
  | .one _ => .one ()
  | .many => .many

/-- `impl Add for Ext` — the union/join operation (src/ext_value.rs). -/
def add {T : Type} : Ext T → Ext T → Ext T
  | .none, other => other
  | .one t, other =>
      match other with
      | .none => .one t
      | _ => .many
  | .many, _ => .many

/-- `impl AddAssign for Ext` — the in-place accumulate (src/ext_value.rs).
    `self` is the left value being mutated; the result is its new value. -/
def add_assign {T : Type} (s other : Ext T) : Ext T :=
  if s.is_none then other
  else if !other.is_none then .many
  else s

/-- `impl Mul for Ext` — the product/pair operation (src/ext_value.rs). -/
def mul {T1 T2 : Type} : Ext T1 → Ext T2 → Ext (T1 × T2)
  | .one x, rhs =>
      match rhs with
      | .one y => .one (x, y)
      | .none => .none
      | .many => .many
  | .none, _ => .none
  | .many, rhs =>
      match rhs with
      | .none => .none
      | _ => .many

/-- `Ext::split` (src/ext_value.rs). -/
def split {T T1 T2 : Type} (e : Ext T) (f : T → T1 × T2) : Ext T1 × Ext T2 :=
  match e with
  | .none => (.none, .none)
  | .one x => (.one (f x).1, .one (f x).2)
  | .many => (.many, .many)

end Ext

/-- `apply1` (src/ext_value.rs). -/
def apply1 {T1 T2 : Type} (op : T1 → T2) : Ext T1 → Ext T2
  | .none => .none
  | .one x => .one (op x)
  | .many => .many

/-- `apply2` (src/ext_value.rs): `apply1(|(x, y)| op(x, y), v1 * v2)`. -/
def apply2 {T1 T2 T3 : Type} (op : T1 → T2 → T3) (v1 : Ext T1) (v2 : Ext T2) :
    Ext T3 :=
  apply1 (fun p => op p.1 p.2) (Ext.mul v1 v2)

/-! Basic sanity checks of the algebra against the repository's unit tests. -/

example : Ext.add (Ext.one 3) (Ext.one 3) = (Ext.many : Ext Int) := rfl
example : Ext.mul (Ext.many : Ext Int) (Ext.none : Ext Int) = Ext.none := rfl
example : apply2 (· + ·) (Ext.one 3) (Ext.one 2) = (Ext.one 5 : Ext Int) := rfl

/-! ## The streaming-transducer contract (src/interface.rs)

A transducer instance is modelled by a record of pure functions over an
explicit state type `S`.  The Rust trait methods `is_epsilon` /
`is_restartable` return `bool` but may panic (`unimplemented!()` in
`ParComp::is_restartable` and `DataTransducer::is_restartable`), so they are
modelled as `Option Bool`, with `Option.none` for "the call never returns a
boolean". -/

structure TDef (I D O : Type) (S : Type) where
  init : S → Ext I → S × Ext O
  update : S → D → S × Ext O
  reset : S → S
  initial : S
  is_epsilon : Option Bool
  is_restartable : Option Bool

/-- `RInput` (src/interface.rs): a stream item or a restart event. -/
inductive RInput (I D : Type) where
  | restart (i : I) : RInput I D
  | item (d : D) : RInput I D

/-- `process_rstream_single` (src/interface.rs) on a finite list: drive one
    instance, routing restarts to `init_one` (= `init (Ext.one i)`) and items
    to `update`, collecting the outputs in order. -/
def runSingle {I D O S : Type} (t : TDef I D O S) :
    S → List (RInput I D) → List (Ext O)
  | _, [] => []
  | s, .restart i :: rest =>
      let r := t.init s (Ext.one i)
      r.2 :: runSingle t r.1 rest
  | s, .item d :: rest =>
      let r := t.update s d
      r.2 :: runSingle t r.1 rest

/-! ## QRE combinators (src/qre.rs) -/

/-- `Epsilon` (src/qre.rs): stateless; `init` applies the action via
    `apply1`, `update` always returns `Ext::None`. -/
def epsilonT {I D O : Type} (action : I → O) : TDef I D O Unit where
  init _ i := ((), apply1 action i)
  update _ _ := ((), Ext.none)
  reset _ := ()
  initial := ()
  is_epsilon := some true
  is_restartable := some true

/-- `Atom` (src/qre.rs): state is the buffered `istate : Ext<I>`.
    `init` joins the incoming value into `istate` (via `AddAssign`) and
    returns `Ext::None`.  `update` swaps `istate` out (leaving `Ext::None`)
    *before* testing the guard, then applies the action via `apply1` if the
    guard passes and returns `Ext::None` otherwise. -/
def atomT {I D O : Type} (guard : D → Bool) (action : I → D → O) :
    TDef I D O (Ext I) where
  init s i := (Ext.add_assign s i, Ext.none)
  update s d :=
    (Ext.none, if guard d then apply1 (fun x => action x d) s else Ext.none)
  reset _ := Ext.none
  initial := Ext.none
  is_epsilon := some false
  is_restartable := some true

/-- Short-circuit `&&` over possibly-panicking boolean calls: evaluating the
    left call first; a panic (`Option.none`) propagates, and a `false` left
    value short-circuits without evaluating the right call. -/
def sandM : Option Bool → Option Bool → Option Bool
  | Option.none, _ => Option.none
  | some false, _ => some false
  | some true, b => b

/-- Short-circuit `||` over possibly-panicking boolean calls. -/
def sorM : Option Bool → Option Bool → Option Bool
  | Option.none, _ => Option.none
  | some true, _ => some true
  | some false, b => b

/-- `Union` (src/qre.rs): join of the two sub-results. -/
def unionT {I D O S1 S2 : Type} (m1 : TDef I D O S1) (m2 : TDef I D O S2) :
    TDef I D O (S1 × S2) where
  init s i :=
    let r1 := m1.init s.1 i
    let r2 := m2.init s.2 i
    ((r1.1, r2.1), Ext.add r1.2 r2.2)
  update s d :=
    let r1 := m1.update s.1 d
    let r2 := m2.update s.2 d
    ((r1.1, r2.1), Ext.add r1.2 r2.2)
  reset s := (m1.reset s.1, m2.reset s.2)
  initial := (m1.initial, m2.initial)
  is_epsilon := sandM m1.is_epsilon m2.is_epsilon
  is_restartable := sandM m1.is_restartable m2.is_restartable

/-- `ParComp` (src/qre.rs): product of the two sub-results; its
    `is_restartable` is `unimplemented!()` in the source, modelled as
    `Option.none` (the call never returns a boolean). -/
def parcompT {I D O1 O2 S1 S2 : Type}
    (m1 : TDef I D O1 S1) (m2 : TDef I D O2 S2) :
    TDef I D (O1 × O2) (S1 × S2) where
  init s i :=
    let r1 := m1.init s.1 i
    let r2 := m2.init s.2 i
    ((r1.1, r2.1), Ext.mul r1.2 r2.2)
  update s d :=
    let r1 := m1.update s.1 d
    let r2 := m2.update s.2 d
    ((r1.1, r2.1), Ext.mul r1.2 r2.2)
  reset s := (m1.reset s.1, m2.reset s.2)
  initial := (m1.initial, m2.initial)
  is_epsilon := sandM m1.is_epsilon m2.is_epsilon
  is_restartable := Option.none

/-- The body of `Concat` (src/qre.rs), independent of the construction-time
    assertion.  `init` feeds `m1`'s init output into `m2.init`.  `update`
    feeds the item to `m1`, then to `m2`, then feeds `m1`'s output into
    `m2.init` and joins the two `m2` outputs. -/
def concatRaw {D X Y Z S1 S2 : Type}
    (m1 : TDef X D Y S1) (m2 : TDef Y D Z S2) : TDef X D Z (S1 × S2) where
  init s i :=
    let r1 := m1.init s.1 i
    let r2 := m2.init s.2 r1.2
    ((r1.1, r2.1), r2.2)
  update s d :=
    let r1 := m1.update s.1 d
    let ra := m2.update s.2 d
    let rb := m2.init ra.1 r1.2
    ((r1.1, rb.1), Ext.add ra.2 rb.2)
  reset s := (m1.reset s.1, m2.reset s.2)
  initial := (m1.initial, m2.initial)
  is_epsilon := sandM m1.is_epsilon m2.is_epsilon
  is_restartable := sandM m1.is_restartable m2.is_restartable

/-- `concat` constructor (src/qre.rs):
    `assert!(m2.is_restartable() || m1.is_epsilon())` — the construction
    aborts (`Option.none`) unless the short-circuit disjunction returns
    `true`; a panic inside either metadata call also aborts. -/
def concatT {D X Y Z S1 S2 : Type}
    (m1 : TDef X D Y S1) (m2 : TDef Y D Z S2) :
    Option (TDef X D Z (S1 × S2)) :=
  match sorM m2.is_restartable m1.is_epsilon with
  | some true => some (concatRaw m1 m2)
  | _ => Option.none

/-- The state record of `Iterate` (src/qre.rs): sub-state, the `istate`
    accumulator of initialized values, and the `loopy` flag. -/
structure IterateSt (S : Type) where
  m : S
  istate : Ext Unit
  loopy : Option Bool

/-- `iterate` constructor (src/qre.rs): `assert!(m.is_restartable())` — the
    construction aborts unless `is_restartable` returns `true` (a panic
    inside the metadata call also aborts); on success the initial state has
    `istate = Ext::None` and `loopy = None`. -/
def iterateT {X D S : Type} (m : TDef X D X S) : Option (IterateSt S) :=
  match m.is_restartable with
  | some true => some { m := m.initial, istate := Ext.none, loopy := Option.none }
  | _ => Option.none

/-! ## Concrete machines from the repository's tests (src/qre.rs, test_concat)

Scenario B: `m1` matches any ASCII digit and increments, `m2` matches `'1'`
or `'a'` and increments; the machine is their concatenation. -/

def mB1 : TDef Int Char Int (Ext Int) :=
  atomT (fun ch => ch.isDigit) (fun i _ => i + 1)

def mB2 : TDef Int Char Int (Ext Int) :=
  atomT (fun ch => ch = '1' || ch = 'a') (fun i _ => i + 1)

def mB : TDef Int Char Int (Ext Int × Ext Int) := concatRaw mB1 mB2

/-- The construction-time assertion of `concat` passes for scenario B
    (`m2` is restartable), so `concat(m1, m2)` is exactly `mB`. -/
example : concatT mB1 mB2 = some mB := rfl

/-- The call sequence of claim C3, started on a fresh instance. -/
def opsB : List (RInput Int Char) :=
  [.restart 0, .item '1', .restart 1, .item '1',
   .restart 2, .item '2', .restart 3, .item '1']

/-- The full call sequence of the repository's `test_concat`, from fresh. -/
def opsConcatTest : List (RInput Int Char) :=
  [.item '1', .item '1', .restart 0, .item '5', .item '1', .item '1',
   .restart 1, .item '1', .restart 2, .item '2', .restart 3, .item '1',
   .restart 4, .item '1', .restart 5, .item 'a', .item '1', .item '1']

/-- Sanity: the embedding reproduces the repository's `test_concat`
    expected outputs exactly (src/qre.rs lines 1078-1096). -/
example :
    runSingle mB mB.initial opsConcatTest =
      [Ext.none, Ext.none, Ext.none, Ext.none, Ext.one 2, Ext.none,
       Ext.none, Ext.none, Ext.none, Ext.none, Ext.none, Ext.one 4,
       Ext.none, Ext.one 5, Ext.none, Ext.one 6, Ext.none, Ext.none] := by
  decide

/-! ## Claim theorems: the `Ext` algebra -/

/-- C5: product annihilation and pairing.  `Absent` annihilates on either
    side (including against `Conflict`); `Single × Single` pairs; any other
    combination involving `Conflict` is `Conflict`. -/
theorem C5_product_annihilation :
    (∀ (T1 T2 : Type) (e : Ext T2), Ext.mul (Ext.none : Ext T1) e = Ext.none)
    ∧ (∀ (T1 T2 : Type) (e : Ext T1), Ext.mul e (Ext.none : Ext T2) = Ext.none)
    ∧ (∀ (T1 T2 : Type) (a : T1) (b : T2),
        Ext.mul (Ext.one a) (Ext.one b) = Ext.one (a, b))
    ∧ (∀ (T1 T2 : Type) (a : T1),
        Ext.mul (Ext.one a) (Ext.many : Ext T2) = Ext.many)
    ∧ (∀ (T1 T2 : Type) (b : T2),
        Ext.mul (Ext.many : Ext T1) (Ext.one b) = Ext.many)
    ∧ (∀ (T1 T2 : Type),
        Ext.mul (Ext.many : Ext T1) (Ext.many : Ext T2) = Ext.many) := by
  refine ⟨fun T1 T2 e => rfl, fun T1 T2 e => ?_, fun _ _ _ _ => rfl,
    fun _ _ _ => rfl, fun _ _ _ => rfl, fun _ _ => rfl⟩
  cases e <;> rfl

/-- C6: join laws.  `Absent` is a two-sided identity, `Conflict` absorbs,
    two `Single`s (with no equality requirement) give `Conflict`, the join is
    commutative and associative over all combinations, and the in-place
    accumulate `+=` agrees with `+` in every case. -/
theorem C6_join_laws :
    (∀ (T : Type) (x : Ext T), Ext.add Ext.none x = x ∧ Ext.add x Ext.none = x)
    ∧ (∀ (T : Type) (x : Ext T),
        Ext.add Ext.many x = Ext.many ∧ Ext.add x Ext.many = Ext.many)
    ∧ (∀ (T : Type) (a b : T), Ext.add (Ext.one a) (Ext.one b) = Ext.many)
    ∧ (∀ (T : Type) (x y : Ext T), Ext.add x y = Ext.add y x)
    ∧ (∀ (T : Type) (x y z : Ext T),
        Ext.add (Ext.add x y) z = Ext.add x (Ext.add y z))
    ∧ (∀ (T : Type) (x y : Ext T), Ext.add_assign x y = Ext.add x y) := by
  refine ⟨fun T x => ⟨rfl, ?_⟩, fun T x => ⟨rfl, ?_⟩, fun _ _ _ => rfl,
    fun T x y => ?_, fun T x y z => ?_, fun T x y => ?_⟩
  · cases x <;> rfl
  · cases x <;> rfl
  · cases x <;> cases y <;> rfl
  · cases x <;> cases y <;> cases z <;> rfl
  · cases x <;> cases y <;> rfl

/-! ## Claim theorems: the atom combinator -/

/-- C10 (implicit): `Atom::init` only buffers (joins the input into
    `istate`) and always returns `Ext::None`, in every state and for every
    input; an atom can only produce output from `update`. -/
theorem C10_atom_init_returns_none :
    ∀ (I D O : Type) (guard : D → Bool) (action : I → D → O)
      (s : Ext I) (i : Ext I),
      (atomT guard action).init s i = (Ext.add_assign s i, Ext.none) :=
  fun _ _ _ _ _ _ _ => rfl

/-- C2 as stated is false: `Atom::update` swaps the buffered state out
    (leaving `Ext::None`) *before* testing the guard, so a guard-failing item
    also consumes and clears the buffer.  Concretely, with guard "item = 1"
    and action `+`, a buffered `One 5` followed by the guard-failing item `2`
    leaves the buffer `Ext.none` (not `One 5`), and the subsequent
    guard-passing item `1` returns `Ext.none` (not `One 6` as the claim's
    "remains available" clause would require). -/
theorem C2_counterexample :
    (((atomT (fun d => d == 1) (fun (x : Nat) (d : Nat) => x + d)).update
        (Ext.one 5) 2).1 = Ext.none)
    ∧ decide ((Ext.none : Ext Nat) = Ext.one 5) = false
    ∧ ((atomT (fun d => d == 1) (fun (x : Nat) (d : Nat) => x + d)).update
        (((atomT (fun d => d == 1) (fun (x : Nat) (d : Nat) => x + d)).update
          (Ext.one 5) 2).1) 1).2 = Ext.none
    ∧ decide ((Ext.none : Ext Nat) = Ext.one 6) = false := by
  exact ⟨by decide, by decide, by decide, by decide⟩

/-- C2 amended: `update(d)` always consumes and clears the buffered state
    (the new buffer is `Absent` whether or not the guard passes); if the
    guard passes it returns `apply1 (f · d)` of the old buffer, and if the
    guard fails it returns `Absent` — the old buffer is discarded either
    way. -/
theorem C2_atom_update_amended :
    ∀ (I D O : Type) (guard : D → Bool) (action : I → D → O)
      (b : Ext I) (d : D),
      (guard d = true →
        (atomT guard action).update b d =
          (Ext.none, apply1 (fun x => action x d) b))
      ∧ (guard d = false →
        (atomT guard action).update b d = (Ext.none, Ext.none)) := by
  intro I D O guard action b d
  constructor
  · intro h
    simp [atomT, h]
  · intro h
    simp [atomT, h]

/-- Witness for C2_atom_update_amended at a concrete machine and inputs. -/
theorem C2_atom_update_amended_witness :
    (atomT (fun d => d == 1) (fun (x : Nat) (d : Nat) => x + d)).update
        (Ext.one 5) 1 = (Ext.none, Ext.one 6)
    ∧ (atomT (fun d => d == 1) (fun (x : Nat) (d : Nat) => x + d)).update
        (Ext.one 5) 2 = (Ext.none, Ext.none) :=
  ⟨(C2_atom_update_amended Nat Nat Nat (fun d => d == 1)
      (fun x d => x + d) (Ext.one 5) 1).1 (by decide),
   (C2_atom_update_amended Nat Nat Nat (fun d => d == 1)
      (fun x d => x + d) (Ext.one 5) 2).2 (by decide)⟩

/-! ## Claim theorems: scenario B (concat) -/

/-- C3 as stated is false: on a *fresh* instance of the scenario-B machine,
    the fourth call (`update('1')` after `init(One 1)`) already emits
    `One 2`, because the second atom still buffers the value produced by the
    first `'1'`; the claimed all-`None` prefix does not occur. -/
theorem C3_counterexample :
    decide (runSingle mB mB.initial opsB =
        [Ext.none, Ext.none, Ext.none, Ext.none,
         Ext.none, Ext.none, Ext.none, Ext.one 4]) = false
    ∧ (runSingle mB mB.initial opsB)[3]? = some (Ext.one 2) := by
  exact ⟨by decide, by decide⟩

/-- C3 amended: a fresh instance of the scenario-B machine on the call
    sequence init(One 0), update('1'), init(One 1), update('1'), init(One 2),
    update('2'), init(One 3), update('1') returns exactly
    None, None, None, One 2, None, None, None, One 4.  (The spec's literal
    all-`None` trace holds only after the prefix of `test_concat`, not from a
    fresh instance.) -/
theorem C3_scenarioB_trace :
    runSingle mB mB.initial opsB =
      [Ext.none, Ext.none, Ext.none, Ext.one 2,
       Ext.none, Ext.none, Ext.none, Ext.one 4] := by
  decide

/-! ## The explicit state machine (src/state_machine.rs)

States are slots holding `Ext Q` values, identified by indices into the
state list (the Rust `StateId` newtype).  Transitions are a closed tagged
variant with one or two source slots (`Trans1` / `Trans2` behind the
`Transition` trait).  Out-of-range `Vec` indexing panics in Rust; where it
cannot occur for machines built through the public API we model the access
with `getD` / a skip, and where it is an API-level abort we return
`Option.none`. -/

inductive Transition (D Q : Type) where
  | t1 (source target : Nat) (guard : D → Bool) (action : D → Q → Q)
  | t2 (source1 source2 target : Nat) (guard : D → Bool) (action : D → Q → Q → Q)

namespace Transition

/-- `Transition::source_ids` (src/state_machine.rs). -/
def source_ids {D Q : Type} : Transition D Q → List Nat
  | .t1 s _ _ _ => [s]
  | .t2 s1 s2 _ _ _ => [s1, s2]

/-- `Transition::target_id` (src/state_machine.rs). -/
def target_id {D Q : Type} : Transition D Q → Nat
  | .t1 _ t _ _ => t
  | .t2 _ _ t _ _ => t

/-- `Transition::is_active` (src/state_machine.rs). -/
def is_active {D Q : Type} (tr : Transition D Q) (item : D) : Bool :=
  match tr with
  | .t1 _ _ g _ => g item
  | .t2 _ _ _ g _ => g item

/-- `Transition::eval` (src/state_machine.rs): apply the action to the
    source slot values via `apply1` / `apply2`. -/
def eval {D Q : Type} (tr : Transition D Q) (item : D)
    (states : List (Ext Q)) : Ext Q :=
  match tr with
  | .t1 s _ _ f => apply1 (fun q => f item q) (states.getD s Ext.none)
  | .t2 s1 s2 _ _ f =>
      apply2 (fun q1 q2 => f item q1 q2)
        (states.getD s1 Ext.none) (states.getD s2 Ext.none)

/-- `Transition::all_ids` (src/state_machine.rs): sources then target. -/
def all_ids {D Q : Type} (tr : Transition D Q) : List Nat :=
  tr.source_ids ++ [tr.target_id]

end Transition

/-- `DataTransducer` (src/state_machine.rs): slot 0 is the initial slot,
    slot 1 the final slot; update transitions fire on stream items, epsilon
    transitions fire to a least fixed point; `eps_out` maps each slot to the
    epsilon transitions reading from it. -/
structure DataTransducer (D Q : Type) where
  states : List (Ext Q)
  updates : List (Transition D Q)
  epsilons : List (Transition Unit Q)
  eps_out : List (List Nat)

namespace DataTransducer

/-- `DataTransducer::new` / `Default` (src/state_machine.rs): two slots
    (initial and final), no transitions. -/
def new {D Q : Type} : DataTransducer D Q where
  states := [Ext.none, Ext.none]
  updates := []
  epsilons := []
  eps_out := [[], []]

/-- `DataTransducer::add_state` (src/state_machine.rs). -/
def add_state {D Q : Type} (m : DataTransducer D Q) : DataTransducer D Q :=
  { m with states := m.states ++ [Ext.none], eps_out := m.eps_out ++ [[]] }

/-- Iterated `add_state`, used by `set_nstates`. -/
def add_states {D Q : Type} (m : DataTransducer D Q) : Nat → DataTransducer D Q
  | 0 => m
  | k + 1 => add_states m.add_state k

/-- `DataTransducer::set_nstates` (src/state_machine.rs):
    `assert!(self.states.len() <= n)` — aborts when shrinking; otherwise
    adds states up to `n`. -/
def set_nstates {D Q : Type} (m : DataTransducer D Q) (n : Nat) :
    Option (DataTransducer D Q) :=
  if m.states.length ≤ n then some (m.add_states (n - m.states.length))
  else Option.none

/-- `DataTransducer::trans_precond` (src/state_machine.rs): all source and
    target ids of the transition are existing slots. -/
def trans_precond {D Q I : Type} (m : DataTransducer D Q)
    (tr : Transition I Q) : Bool :=
  tr.all_ids.all (fun id => id < m.states.length)

/-- `DataTransducer::add_transition_core` (src/state_machine.rs):
    `assert!(self.trans_precond(&tr))` holds in every build configuration,
    then the update transition is appended. -/
def add_transition_core {D Q : Type} (m : DataTransducer D Q)
    (tr : Transition D Q) : Option (DataTransducer D Q) :=
  if m.trans_precond tr then some { m with updates := m.updates ++ [tr] }
  else Option.none

/-- `DataTransducer::add_epsilon_core` (src/state_machine.rs):
    `debug_assert!(self.trans_precond(&tr))` — the slot check runs only when
    `debug` is set.  Afterwards the new transition id is pushed onto
    `eps_out[source]` for every source; in a release build an out-of-range
    *source* still aborts there (`Vec` index panic), while an out-of-range
    *target* goes unnoticed. -/
def add_epsilon_core {D Q : Type} (debug : Bool) (m : DataTransducer D Q)
    (tr : Transition Unit Q) : Option (DataTransducer D Q) :=
  if debug && !(m.trans_precond tr) then Option.none
  else if tr.source_ids.all (fun id => id < m.eps_out.length) then
    let new_tr_id := m.epsilons.length
    some { m with
      eps_out := tr.source_ids.foldl
        (fun eo sid => eo.set sid (eo.getD sid [] ++ [new_tr_id])) m.eps_out,
      epsilons := m.epsilons ++ [tr] }
  else Option.none

/-- `DataTransducer::add_transition1` (src/state_machine.rs). -/
def add_transition1 {D Q : Type} (m : DataTransducer D Q)
    (source target : Nat) (guard : D → Bool) (action : D → Q → Q) :
    Option (DataTransducer D Q) :=
  m.add_transition_core (.t1 source target guard action)

/-- `DataTransducer::add_transition2` (src/state_machine.rs). -/
def add_transition2 {D Q : Type} (m : DataTransducer D Q)
    (source1 source2 target : Nat) (guard : D → Bool)
    (action : D → Q → Q → Q) : Option (DataTransducer D Q) :=
  m.add_transition_core (.t2 source1 source2 target guard action)

/-- `DataTransducer::add_iden` (src/state_machine.rs): an identity
    transition preserving a slot across a step. -/
def add_iden {D Q : Type} (m : DataTransducer D Q) (source target : Nat)
    (guard : D → Bool) : Option (DataTransducer D Q) :=
  m.add_transition1 source target guard (fun _ q => q)

/-- Stand-in for `epsilon_guard` (src/state_machine.rs): the guard of an
    epsilon transition is never consulted by the algorithm (it panics in the
    source if called); the algorithm below never calls `is_active` on an
    epsilon transition. -/
def epsilon_guard_stub : Unit → Bool := fun _ => false

/-- `DataTransducer::add_epsilon1` (src/state_machine.rs). -/
def add_epsilon1 {D Q : Type} (debug : Bool) (m : DataTransducer D Q)
    (source target : Nat) (action : Q → Q) : Option (DataTransducer D Q) :=
  add_epsilon_core debug m
    (.t1 source target epsilon_guard_stub (fun _ q => action q))

/-- `DataTransducer::add_epsilon2` (src/state_machine.rs). -/
def add_epsilon2 {D Q : Type} (debug : Bool) (m : DataTransducer D Q)
    (source1 source2 target : Nat) (action : Q → Q → Q) :
    Option (DataTransducer D Q) :=
  add_epsilon_core debug m
    (.t2 source1 source2 target epsilon_guard_stub (fun _ q1 q2 => action q1 q2))

end DataTransducer

/-! ## The epsilon-closure worklist (src/state_machine.rs, `eval_epsilons`)

The Rust `while let Some(tr_id) = trans_wklist.pop()` loop is embedded as a
fuel-indexed recursion `epsRun`; `potential` computes an explicit bound on
the number of remaining iterations, proved sufficient below, so running with
`potential + 1` fuel is exactly the Rust loop run to completion.  The
worklist is a stack: the list head is the top (Rust pushes/pops at the `Vec`
end), so the initial worklist `0..n` appears reversed and a block push
appears as a fold of conses. -/

/-- The height of a value in the lattice `Absent < Single < Conflict`. -/
def extRank {T : Type} : Ext T → Nat
  | .none => 0
  | .one _ => 1
  | .many => 2

/-- Total lattice height of a slot or cache vector. -/
def rankSum {T : Type} (l : List (Ext T)) : Nat := (l.map extRank).sum

/-- Bound on how many transition ids one worklist push can add: the total
    size of the epsilon-adjacency table. -/
def pushBound (eps_out : List (List Nat)) : Nat :=
  (eps_out.map List.length).sum

/-- Decreasing measure for the worklist loop: every iteration either pops
    without changing any slot (first component fixed, worklist shrinks) or
    strictly increases the lattice total (first component shrinks by at
    least one full push allowance). -/
def potential {Q : Type} (states : List (Ext Q)) (vals : List (Ext Unit))
    (wk : List Nat) (eps_out : List (List Nat)) : Nat :=
  wk.length +
    (2 * (states.length + vals.length) - (rankSum states + rankSum vals)) *
      (pushBound eps_out + 2)

/-- One-loop-at-a-time embedding of the `while let Some(tr_id) =
    trans_wklist.pop()` loop of `eval_epsilons` (src/state_machine.rs):
    skip when the transition's cached contribution or the target slot is
    already `Many`; re-evaluate; skip when the new contribution is `None`,
    or is `One` while the cached contribution was already `One`; otherwise
    record the coarsened contribution, join into the target slot, and push
    every epsilon transition reading from the target.  The two `Option.none`
    fallbacks on indexing are unreachable for machines built through the
    public API (worklist ids are always valid epsilon indices; transition
    targets are slot-checked on addition in debug builds). -/
def epsRun {Q : Type} (eps : List (Transition Unit Q))
    (eps_out : List (List Nat)) :
    Nat → List (Ext Q) → List (Ext Unit) → List Nat →
      List (Ext Q) × List (Ext Unit) × List Nat
  | 0, states, vals, wk => (states, vals, wk)
  | _ + 1, states, vals, [] => (states, vals, [])
  | fuel + 1, states, vals, tr_id :: rest =>
    match eps[tr_id]? with
    | Option.none => epsRun eps eps_out fuel states vals rest
    | some tr =>
      -- `cur` is the Rust `trans_vals[tr_id]`, `tr.target_id` the `tgt_id`,
      --  and `tr.eval () states` the re-evaluated contribution `new`
      match states[tr.target_id]? with
      | Option.none => epsRun eps eps_out fuel states vals rest
      | some tgt_val =>
        if (vals.getD tr_id Ext.none).is_many || tgt_val.is_many then
          epsRun eps eps_out fuel states vals rest
        else
          if (tr.eval () states).is_none ||
              ((tr.eval () states).is_one &&
                (vals.getD tr_id Ext.none).is_one) then
            epsRun eps eps_out fuel states vals rest
          else
            epsRun eps eps_out fuel
              (states.set tr.target_id
                (Ext.add_assign tgt_val (tr.eval () states)))
              (vals.set tr_id (tr.eval () states).to_unit)
              ((eps_out.getD tr.target_id []).foldl (fun acc e => e :: acc) rest)

namespace DataTransducer

/-- The complete run of the `eval_epsilons` worklist loop
    (src/state_machine.rs): seed the worklist with all epsilon transitions
    (popped from the `Vec` end, hence reversed here), seed the
    per-transition contribution cache with `Ext::None`, and run the loop
    with provably sufficient fuel; the `.2.2` component is the final
    worklist, empty by `epsRun_reaches_empty`. -/
def eps_closure_run {D Q : Type} (m : DataTransducer D Q) :
    List (Ext Q) × List (Ext Unit) × List Nat :=
  let n := m.epsilons.length
  let vals : List (Ext Unit) := List.replicate n Ext.none
  let wk : List Nat := (List.range n).reverse
  epsRun m.epsilons m.eps_out (potential m.states vals wk m.eps_out + 1)
    m.states vals wk

/-- `DataTransducer::eval_epsilons` (src/state_machine.rs): replace the slot
    vector by the result of the worklist loop. -/
def eval_epsilons {D Q : Type} (m : DataTransducer D Q) : DataTransducer D Q :=
  { m with states := (eps_closure_run m).1 }

/-- `DataTransducer::eval_updates` (src/state_machine.rs): build a fresh
    all-`None` slot vector, join every active update transition's evaluation
    (of the *old* slots) into its target in the fresh vector, and replace
    the slot vector. -/
def eval_updates {D Q : Type} (m : DataTransducer D Q) (item : D) :
    DataTransducer D Q :=
  let new_states := m.updates.foldl
    (fun ns tr =>
      if tr.is_active item then
        ns.set tr.target_id
          (Ext.add_assign (ns.getD tr.target_id Ext.none) (tr.eval item m.states))
      else ns)
    (List.replicate m.states.length Ext.none)
  { m with states := new_states }

/-- `DataTransducer::add_to_istate` (src/state_machine.rs): join the given
    value into slot 0. -/
def add_to_istate {D Q : Type} (m : DataTransducer D Q) (i : Ext Q) :
    DataTransducer D Q :=
  { m with
    states := m.states.set 0 (Ext.add_assign (m.states.getD 0 Ext.none) i) }

/-- `DataTransducer::get_fstate` (src/state_machine.rs): read slot 1. -/
def get_fstate {D Q : Type} (m : DataTransducer D Q) : Ext Q :=
  m.states.getD 1 Ext.none

/-- `DataTransducer::init` (src/state_machine.rs): join into slot 0, run
    the epsilon closure, read slot 1. -/
def init {D Q : Type} (m : DataTransducer D Q) (i : Ext Q) :
    DataTransducer D Q × Ext Q :=
  let m1 := (m.add_to_istate i).eval_epsilons
  (m1, m1.get_fstate)

/-- `DataTransducer::update` (src/state_machine.rs): run the update pass,
    then the epsilon closure, read slot 1. -/
def update {D Q : Type} (m : DataTransducer D Q) (item : D) :
    DataTransducer D Q × Ext Q :=
  let m1 := (m.eval_updates item).eval_epsilons
  (m1, m1.get_fstate)

/-- `DataTransducer::reset` (src/state_machine.rs): set every slot back to
    `Ext::None`. -/
def reset {D Q : Type} (m : DataTransducer D Q) : DataTransducer D Q :=
  { m with states := m.states.map (fun _ => Ext.none) }

/-- `DataTransducer::is_epsilon` (src/state_machine.rs). -/
def is_epsilon {D Q : Type} (m : DataTransducer D Q) : Bool :=
  m.updates.isEmpty

/-- `DataTransducer::is_restartable` (src/state_machine.rs) is
    `unimplemented!()` — modelled as `Option.none`: the call never returns
    a boolean. -/
def is_restartable {D Q : Type} (_ : DataTransducer D Q) : Option Bool :=
  Option.none

/-- `DataTransducer::n_states` (src/state_machine.rs). -/
def n_states {D Q : Type} (m : DataTransducer D Q) : Nat := m.states.length

/-- `DataTransducer::n_transs` (src/state_machine.rs). -/
def n_transs {D Q : Type} (m : DataTransducer D Q) : Nat :=
  m.updates.length + m.epsilons.length

/-- `DataTransducer::invariant` (src/state_machine.rs): at least two slots;
    one epsilon-adjacency entry list per slot; the total number of stored
    transition ids equals the total number of (transition, source) pairs
    over the epsilon transitions; every stored id names an epsilon
    transition that reads from that slot. -/
def invariant {D Q : Type} (m : DataTransducer D Q) : Prop :=
  2 ≤ m.states.length ∧
  m.states.length = m.eps_out.length ∧
  (m.eps_out.map List.length).sum =
    (m.epsilons.map (fun tr => tr.source_ids.length)).sum ∧
  ∀ sid l, m.eps_out[sid]? = some l →
    ∀ tid ∈ l, ∃ tr : Transition Unit Q,
      m.epsilons[tid]? = some tr ∧ sid ∈ tr.source_ids

end DataTransducer

/-! ## Termination of the worklist loop

`potential` strictly decreases at every loop iteration: a skipped transition
only shortens the worklist, and a joined contribution strictly increases the
finite-height lattice total, which pays for the worklist entries pushed.  -/

theorem extRank_le_two {T : Type} (e : Ext T) : extRank e ≤ 2 := by
  cases e <;> simp [extRank]

theorem extRank_to_unit {T : Type} (e : Ext T) :
    extRank e.to_unit = extRank e := by
  cases e <;> rfl

theorem extRank_add_assign_left {T : Type} (a b : Ext T) :
    extRank a ≤ extRank (Ext.add_assign a b) := by
  cases a <;> cases b <;> simp [Ext.add_assign, Ext.is_none, extRank]

theorem rankSum_le {T : Type} (l : List (Ext T)) :
    rankSum l ≤ 2 * l.length := by
  induction l with
  | nil => simp [rankSum]
  | cons x xs ih =>
    have := extRank_le_two x
    simp only [rankSum, List.map_cons, List.sum_cons, List.length_cons] at *
    omega

/-- Replacing one entry of a list trades its `f`-value for the new one in
    the mapped sum. -/
theorem sum_map_set {α : Type} (f : α → Nat) :
    ∀ (l : List α) (i : Nat) (x : α), i < l.length →
      ((l.set i x).map f).sum + f (l.getD i x) = (l.map f).sum + f x := by
  intro l
  induction l with
  | nil => intro i x h; simp at h
  | cons y ys ih =>
    intro i x h
    cases i with
    | zero => simp [List.set]; omega
    | succ i =>
      simp only [List.set, List.map_cons, List.sum_cons, List.getD_cons_succ]
      have := ih i x (by simpa using h)
      omega

theorem rankSum_set {T : Type} (l : List (Ext T)) (i : Nat) (x : Ext T)
    (h : i < l.length) :
    rankSum (l.set i x) + extRank (l.getD i x) = rankSum l + extRank x :=
  sum_map_set extRank l i x h

theorem getD_length_le_pushBound (eo : List (List Nat)) (t : Nat) :
    (eo.getD t []).length ≤ pushBound eo := by
  by_cases h : t < eo.length
  · have hmem : (eo.getD t []).length ∈ eo.map List.length := by
      rw [List.getD_eq_getElem eo [] h]
      exact List.mem_map_of_mem List.length (List.getElem_mem h)
    exact List.single_le_sum (fun x _ => Nat.zero_le x) _ hmem
  · rw [List.getD_eq_default eo [] (by omega)]
    simp [pushBound]

theorem foldl_cons_length {α : Type} :
    ∀ (l : List α) (init : List α),
      (l.foldl (fun acc e => e :: acc) init).length = l.length + init.length := by
  intro l
  induction l with
  | nil => intro init; simp
  | cons x xs ih =>
    intro init
    simp only [List.foldl_cons, ih, List.length_cons]
    omega

/-- The lattice position of a transition's cached contribution strictly
    increases whenever the loop body commits a join. -/
theorem rank_gain {Q : Type} (newv : Ext Q) (cur : Ext Unit)
    (h1 : cur.is_many = false)
    (h2 : (newv.is_none || (newv.is_one && cur.is_one)) = false) :
    extRank cur + 1 ≤ extRank newv.to_unit := by
  cases newv <;> cases cur <;>
    simp_all [Ext.is_many, Ext.is_none, Ext.is_one, extRank, Ext.to_unit]

/-- With `potential`-many fuel the worklist loop reaches an empty worklist:
    this is the termination argument of `eval_epsilons` for every automaton
    (every step either shrinks the worklist or strictly increases some
    lattice position). -/
theorem epsRun_reaches_empty {Q : Type} (eps : List (Transition Unit Q))
    (eps_out : List (List Nat)) :
    ∀ (fuel : Nat) (states : List (Ext Q)) (vals : List (Ext Unit))
      (wk : List Nat),
      vals.length = eps.length →
      potential states vals wk eps_out < fuel →
      (epsRun eps eps_out fuel states vals wk).2.2 = [] := by
  intro fuel
  induction fuel with
  | zero => intro states vals wk _ h; omega
  | succ fuel ih =>
    intro states vals wk hlen hpot
    match wk with
    | [] => rfl
    | tr_id :: rest =>
      have hrest : potential states vals rest eps_out < fuel := by
        simp only [potential, List.length_cons] at hpot ⊢
        omega
      rw [epsRun]
      split
      · exact ih states vals rest hlen hrest
      next tr heps =>
        split
        · exact ih states vals rest hlen hrest
        next tgt_val hst =>
          split
          · exact ih states vals rest hlen hrest
          next hmany =>
            split
            · exact ih states vals rest hlen hrest
            next hnew =>
              apply ih _ _ _ (by simpa using hlen)
              rw [Bool.not_eq_true] at hmany hnew
              -- the change branch: the lattice total strictly increases
              have htgt : tr.target_id < states.length :=
                (List.getElem?_eq_some.mp hst).1
              have htgt_val : states.getD tr.target_id (Ext.add_assign tgt_val (tr.eval () states)) = tgt_val := by
                rw [List.getD_eq_getElem states _ htgt]
                exact (List.getElem?_eq_some.mp hst).2
              have htr : tr_id < vals.length := by
                rw [hlen]; exact (List.getElem?_eq_some.mp heps).1
              have hcur : vals.getD tr_id ((tr.eval () states).to_unit) =
                  vals.getD tr_id Ext.none := by
                rw [List.getD_eq_getElem vals _ htr, List.getD_eq_getElem vals _ htr]
              have e1 := rankSum_set states tr.target_id
                (Ext.add_assign tgt_val (tr.eval () states)) htgt
              rw [htgt_val] at e1
              have e2 := rankSum_set vals tr_id
                ((tr.eval () states).to_unit) htr
              rw [hcur] at e2
              have f1 := extRank_add_assign_left tgt_val (tr.eval () states)
              have hcm : (vals.getD tr_id Ext.none).is_many = false := by
                cases h' : (vals.getD tr_id Ext.none).is_many <;>
                  simp_all
              have f2 := rank_gain (tr.eval () states)
                (vals.getD tr_id Ext.none) hcm (by
                  cases h' : ((tr.eval () states).is_none ||
                    ((tr.eval () states).is_one &&
                      (vals.getD tr_id Ext.none).is_one)) <;> simp_all)
              rw [extRank_to_unit] at f2
              -- arithmetic: the potential strictly decreases
              simp only [potential] at hpot ⊢
              rw [List.length_set, List.length_set,
                foldl_cons_length, List.length_cons] at *
              have hpush := getD_length_le_pushBound eps_out tr.target_id
              have hb1 := rankSum_le (states.set tr.target_id
                (Ext.add_assign tgt_val (tr.eval () states)))
              have hb2 := rankSum_le (vals.set tr_id
                ((tr.eval () states).to_unit))
              rw [List.length_set] at hb1 hb2
              set E := pushBound eps_out with hE
              set B := 2 * (states.length + vals.length) with hB
              set P := rankSum states + rankSum vals with hP
              set P' := rankSum (states.set tr.target_id
                  (Ext.add_assign tgt_val (tr.eval () states))) +
                rankSum (vals.set tr_id ((tr.eval () states).to_unit))
                with hP'
              have hPlt : P + 1 ≤ P' := by
                rw [extRank_to_unit] at e2
                omega
              have hPB : P' ≤ B := by omega
              have hkey : (B - P') * (E + 2) + (E + 2) ≤ (B - P) * (E + 2) := by
                have : (B - P') + 1 ≤ B - P := by omega
                calc (B - P') * (E + 2) + (E + 2)
                    = ((B - P') + 1) * (E + 2) := by ring
                  _ ≤ (B - P) * (E + 2) :=
                      Nat.mul_le_mul_right _ this
              omega

/-! ## Preservation of the structural invariant (claim C9) -/

/-- The worklist loop never changes the number of slots. -/
theorem epsRun_states_length {Q : Type} (eps : List (Transition Unit Q))
    (eps_out : List (List Nat)) :
    ∀ (fuel : Nat) (states : List (Ext Q)) (vals : List (Ext Unit))
      (wk : List Nat),
      (epsRun eps eps_out fuel states vals wk).1.length = states.length := by
  intro fuel
  induction fuel with
  | zero => intro states vals wk; rfl
  | succ fuel ih =>
    intro states vals wk
    match wk with
    | [] => rfl
    | tr_id :: rest =>
      rw [epsRun]
      split
      · exact ih states vals rest
      next tr heps =>
        split
        · exact ih states vals rest
        next tgt_val hst =>
          split
          · exact ih states vals rest
          next hmany =>
            split
            · exact ih states vals rest
            next hnew =>
              rw [ih]
              exact List.length_set ..

/-- The `eval_updates` fold never changes the length of the fresh vector. -/
theorem foldl_update_length {D Q : Type} (item : D) (old : List (Ext Q)) :
    ∀ (trs : List (Transition D Q)) (ns : List (Ext Q)),
      (trs.foldl
        (fun ns tr =>
          if tr.is_active item then
            ns.set tr.target_id
              (Ext.add_assign (ns.getD tr.target_id Ext.none)
                (tr.eval item old))
          else ns) ns).length = ns.length := by
  intro trs
  induction trs with
  | nil => intro ns; rfl
  | cons tr trs ih =>
    intro ns
    rw [List.foldl_cons, ih]
    split <;> simp

/-- The `add_epsilon_core` adjacency fold never changes the table length. -/
theorem foldl_eps_out_length (k : Nat) :
    ∀ (srcs : List Nat) (eo : List (List Nat)),
      (srcs.foldl (fun eo sid => eo.set sid (eo.getD sid [] ++ [k]))
        eo).length = eo.length := by
  intro srcs
  induction srcs with
  | nil => intro eo; rfl
  | cons s ss ih =>
    intro eo
    rw [List.foldl_cons, ih]
    exact List.length_set ..

/-- Each in-range push of the `add_epsilon_core` adjacency fold grows the
    total table size by exactly one per source. -/
theorem foldl_eps_out_sum (k : Nat) :
    ∀ (srcs : List Nat) (eo : List (List Nat)),
      (∀ s ∈ srcs, s < eo.length) →
      ((srcs.foldl (fun eo sid => eo.set sid (eo.getD sid [] ++ [k]))
          eo).map List.length).sum
        = (eo.map List.length).sum + srcs.length := by
  intro srcs
  induction srcs with
  | nil => intro eo _; rfl
  | cons s ss ih =>
    intro eo hall
    have hs : s < eo.length := hall s (List.mem_cons_self ..)
    rw [List.foldl_cons, List.getD_eq_getElem eo [] hs]
    rw [ih (eo.set s (eo[s] ++ [k]))
      (fun s' hs' => by
        rw [List.length_set]
        exact hall s' (List.mem_cons_of_mem _ hs'))]
    have hstep := sum_map_set List.length eo s (eo[s] ++ [k]) hs
    rw [List.getD_eq_getElem eo _ hs] at hstep
    simp only [List.length_append, List.length_cons, List.length_nil]
      at hstep ⊢
    omega

/-- Where an id stored by the `add_epsilon_core` adjacency fold comes from:
    either it was already in the table, or it is the freshly pushed id `k`
    and the slot is one of the fold's sources. -/
theorem foldl_eps_out_mem (k : Nat) :
    ∀ (srcs : List Nat) (eo : List (List Nat)) (sid : Nat) (l : List Nat)
      (tid : Nat),
      (srcs.foldl (fun eo sid => eo.set sid (eo.getD sid [] ++ [k]))
        eo)[sid]? = some l → tid ∈ l →
      (∃ l0, eo[sid]? = some l0 ∧ tid ∈ l0) ∨ (tid = k ∧ sid ∈ srcs) := by
  intro srcs
  induction srcs with
  | nil =>
    intro eo sid l tid h htid
    exact Or.inl ⟨l, h, htid⟩
  | cons s ss ih =>
    intro eo sid l tid h htid
    rw [List.foldl_cons] at h
    rcases ih (eo.set s (eo.getD s [] ++ [k])) sid l tid h htid with
      ⟨l0, h0, htid0⟩ | ⟨htk, hsid⟩
    · by_cases heq : s = sid
      · subst heq
        by_cases hlt : s < eo.length
        · rw [List.getElem?_set_self hlt] at h0
          cases h0
          rw [List.getD_eq_getElem eo _ hlt] at htid0
          rcases List.mem_append.mp htid0 with hold | hnew
          · exact Or.inl ⟨_, List.getElem?_eq_some.mpr ⟨hlt, rfl⟩, hold⟩
          · simp only [List.mem_singleton] at hnew
            exact Or.inr ⟨hnew, List.mem_cons_self ..⟩
        · rw [List.set_eq_of_length_le (by omega)] at h0
          exact Or.inl ⟨l0, h0, htid0⟩
      · rw [List.getElem?_set_ne heq] at h0
        exact Or.inl ⟨l0, h0, htid0⟩
    · exact Or.inr ⟨htk, List.mem_cons_of_mem _ hsid⟩

/-- The invariant holds for a freshly constructed automaton. -/
theorem inv_new {D Q : Type} :
    (DataTransducer.new : DataTransducer D Q).invariant := by
  refine ⟨by simp [DataTransducer.new], by simp [DataTransducer.new],
    by simp [DataTransducer.new], ?_⟩
  intro sid l h tid htid
  have hl : l = [] := by
    match sid with
    | 0 => simpa [DataTransducer.new] using h.symm
    | 1 => simpa [DataTransducer.new] using h.symm
    | n + 2 => simp [DataTransducer.new] at h
  subst hl
  simp at htid

/-- `add_state` preserves the invariant. -/
theorem inv_add_state {D Q : Type} (m : DataTransducer D Q)
    (hinv : m.invariant) : m.add_state.invariant := by
  obtain ⟨h2, hlen, hsum, hmem⟩ := hinv
  refine ⟨?_, ?_, ?_, ?_⟩
  · simp only [DataTransducer.add_state, List.length_append]
    omega
  · simp only [DataTransducer.add_state, List.length_append,
      List.length_cons, List.length_nil]
    omega
  · simpa [DataTransducer.add_state] using hsum
  · intro sid l h tid htid
    simp only [DataTransducer.add_state] at h
    by_cases hs : sid < m.eps_out.length
    · rw [List.getElem?_append_left hs] at h
      exact hmem sid l h tid htid
    · rw [List.getElem?_append_right (by omega)] at h
      have hl : l = [] := by
        match hk : sid - m.eps_out.length, h with
        | 0, h => simpa using h.symm
        | n + 1, h => simp at h
      subst hl
      simp at htid

/-- Iterated `add_state` preserves the invariant. -/
theorem inv_add_states {D Q : Type} (m : DataTransducer D Q) (k : Nat)
    (hinv : m.invariant) : (m.add_states k).invariant := by
  induction k generalizing m with
  | zero => exact hinv
  | succ k ih => exact ih m.add_state (inv_add_state m hinv)

/-- A successful `set_nstates` preserves the invariant. -/
theorem inv_set_nstates {D Q : Type} (m m' : DataTransducer D Q) (n : Nat)
    (h : m.set_nstates n = some m') (hinv : m.invariant) : m'.invariant := by
  rw [DataTransducer.set_nstates] at h
  split at h
  · cases h
    exact inv_add_states m _ hinv
  · cases h

/-- A successful `add_transition_core` preserves the invariant (it touches
    only the update-transition list, which the invariant does not mention). -/
theorem inv_add_transition_core {D Q : Type} (m m' : DataTransducer D Q)
    (tr : Transition D Q) (h : m.add_transition_core tr = some m')
    (hinv : m.invariant) : m'.invariant := by
  rw [DataTransducer.add_transition_core] at h
  split at h
  · cases h
    exact hinv
  · cases h

/-- A successful `add_epsilon_core` preserves the invariant: the new
    transition id is pushed onto the adjacency list of each of its sources,
    so both the size equation and the membership property carry over. -/
theorem inv_add_epsilon_core {D Q : Type} (debug : Bool)
    (m m' : DataTransducer D Q) (tr : Transition Unit Q)
    (h : DataTransducer.add_epsilon_core debug m tr = some m')
    (hinv : m.invariant) : m'.invariant := by
  obtain ⟨h2, hlen, hsum, hmem⟩ := hinv
  rw [DataTransducer.add_epsilon_core] at h
  split at h
  · cases h
  · split at h
    next hall =>
      cases h
      refine ⟨h2, ?_, ?_, ?_⟩
      · rw [foldl_eps_out_length]
        exact hlen
      · rw [foldl_eps_out_sum m.epsilons.length tr.source_ids m.eps_out
          (fun s hs => by
            simp only [List.all_eq_true, decide_eq_true_eq] at hall
            exact hall s hs)]
        simp only [List.map_append, List.sum_append, List.map_cons,
          List.map_nil, List.sum_cons, List.sum_nil]
        omega
      · intro sid l hget tid htid
        rcases foldl_eps_out_mem m.epsilons.length tr.source_ids m.eps_out
          sid l tid hget htid with ⟨l0, h0, htid0⟩ | ⟨htk, hsid⟩
        · obtain ⟨tr', htr', hs'⟩ := hmem sid l0 h0 tid htid0
          refine ⟨tr', ?_, hs'⟩
          have hlt : tid < m.epsilons.length :=
            (List.getElem?_eq_some.mp htr').1
          rw [List.getElem?_append_left hlt]
          exact htr'
        · subst htk
          exact ⟨tr, List.getElem?_concat_length .., hsid⟩
    next => cases h

/-- `eval_epsilons` preserves the invariant (it only rewrites slot values,
    never the slot count or the transition structure). -/
theorem inv_eval_epsilons {D Q : Type} (m : DataTransducer D Q)
    (hinv : m.invariant) : m.eval_epsilons.invariant := by
  obtain ⟨h2, hlen, hsum, hmem⟩ := hinv
  refine ⟨?_, ?_, hsum, hmem⟩
  · simpa [DataTransducer.eval_epsilons, DataTransducer.eps_closure_run,
      epsRun_states_length] using h2
  · simpa [DataTransducer.eval_epsilons, DataTransducer.eps_closure_run,
      epsRun_states_length] using hlen

/-- `eval_updates` replaces the slot vector by one of the same length. -/
theorem eval_updates_states_length {D Q : Type} (m : DataTransducer D Q)
    (item : D) : (m.eval_updates item).states.length = m.states.length :=
  (foldl_update_length item m.states m.updates
    (List.replicate m.states.length Ext.none)).trans
    (List.length_replicate ..)

/-- `eval_updates` preserves the invariant. -/
theorem inv_eval_updates {D Q : Type} (m : DataTransducer D Q) (item : D)
    (hinv : m.invariant) : (m.eval_updates item).invariant := by
  obtain ⟨h2, hlen, hsum, hmem⟩ := hinv
  refine ⟨?_, ?_, hsum, hmem⟩
  · rw [eval_updates_states_length]
    exact h2
  · rw [eval_updates_states_length]
    exact hlen

/-- `add_to_istate` preserves the invariant. -/
theorem inv_add_to_istate {D Q : Type} (m : DataTransducer D Q) (i : Ext Q)
    (hinv : m.invariant) : (m.add_to_istate i).invariant := by
  obtain ⟨h2, hlen, hsum, hmem⟩ := hinv
  refine ⟨?_, ?_, hsum, hmem⟩
  · simpa [DataTransducer.add_to_istate] using h2
  · simpa [DataTransducer.add_to_istate] using hlen

/-- `reset` preserves the invariant. -/
theorem inv_reset {D Q : Type} (m : DataTransducer D Q)
    (hinv : m.invariant) : m.reset.invariant := by
  obtain ⟨h2, hlen, hsum, hmem⟩ := hinv
  refine ⟨?_, ?_, hsum, hmem⟩
  · simpa [DataTransducer.reset] using h2
  · simpa [DataTransducer.reset] using hlen

/-- C9: the structural invariant — at least two slots, one adjacency entry
    list per slot, total stored ids equal to the total number of
    (transition, source) pairs over epsilon transitions, and every stored id
    naming an epsilon transition that reads from that slot — holds for a
    fresh automaton and is preserved by every public operation (for the
    fallible constructors, whenever they succeed). -/
theorem C9_structural_invariant :
    (∀ (D Q : Type), (DataTransducer.new : DataTransducer D Q).invariant)
    ∧ (∀ (D Q : Type) (m : DataTransducer D Q),
        m.invariant → m.add_state.invariant)
    ∧ (∀ (D Q : Type) (m m' : DataTransducer D Q) (n : Nat),
        m.set_nstates n = some m' → m.invariant → m'.invariant)
    ∧ (∀ (D Q : Type) (m m' : DataTransducer D Q) (s t : Nat)
        (g : D → Bool) (f : D → Q → Q),
        m.add_transition1 s t g f = some m' → m.invariant → m'.invariant)
    ∧ (∀ (D Q : Type) (m m' : DataTransducer D Q) (s1 s2 t : Nat)
        (g : D → Bool) (f : D → Q → Q → Q),
        m.add_transition2 s1 s2 t g f = some m' → m.invariant → m'.invariant)
    ∧ (∀ (D Q : Type) (m m' : DataTransducer D Q) (s t : Nat)
        (g : D → Bool),
        m.add_iden s t g = some m' → m.invariant → m'.invariant)
    ∧ (∀ (debug : Bool) (D Q : Type) (m m' : DataTransducer D Q) (s t : Nat)
        (f : Q → Q),
        DataTransducer.add_epsilon1 debug m s t f = some m' →
        m.invariant → m'.invariant)
    ∧ (∀ (debug : Bool) (D Q : Type) (m m' : DataTransducer D Q)
        (s1 s2 t : Nat) (f : Q → Q → Q),
        DataTransducer.add_epsilon2 debug m s1 s2 t f = some m' →
        m.invariant → m'.invariant)
    ∧ (∀ (D Q : Type) (m : DataTransducer D Q) (i : Ext Q),
        m.invariant → (m.init i).1.invariant)
    ∧ (∀ (D Q : Type) (m : DataTransducer D Q) (item : D),
        m.invariant → (m.update item).1.invariant)
    ∧ (∀ (D Q : Type) (m : DataTransducer D Q),
        m.invariant → m.reset.invariant) :=
  ⟨fun _ _ => inv_new,
   fun _ _ m h => inv_add_state m h,
   fun _ _ m m' n h hi => inv_set_nstates m m' n h hi,
   fun _ _ m m' _ _ _ _ h hi => inv_add_transition_core m m' _ h hi,
   fun _ _ m m' _ _ _ _ _ h hi => inv_add_transition_core m m' _ h hi,
   fun _ _ m m' _ _ _ h hi => inv_add_transition_core m m' _ h hi,
   fun debug _ _ m m' _ _ _ h hi => inv_add_epsilon_core debug m m' _ h hi,
   fun debug _ _ m m' _ _ _ _ h hi => inv_add_epsilon_core debug m m' _ h hi,
   fun _ _ m i hi => inv_eval_epsilons _ (inv_add_to_istate m i hi),
   fun _ _ m item hi => inv_eval_epsilons _ (inv_eval_updates m item hi),
   fun _ _ m hi => inv_reset m hi⟩

/-- Witness for C9_structural_invariant: a concrete successful
    `set_nstates` call on a fresh automaton, with both hypotheses
    discharged at the concrete input. -/
theorem C9_structural_invariant_witness :
    ((DataTransducer.new : DataTransducer Unit Int).add_states 1).invariant :=
  C9_structural_invariant.2.2.1 Unit Int DataTransducer.new
    (DataTransducer.new.add_states 1) 3 rfl
    (C9_structural_invariant.1 Unit Int)

/-! ## Claim theorems: construction-time aborts (claim C4) -/

/-- C4 as stated is false: `add_epsilon_core` checks its slot precondition
    with `debug_assert!`, which is compiled out in release builds.  In the
    release configuration (`debug := false`), adding an epsilon transition
    whose declared *target* (slot 5 of a two-slot automaton) does not exist
    succeeds instead of aborting at the add call. -/
theorem C4_counterexample :
    (DataTransducer.add_epsilon1 false
      (DataTransducer.new : DataTransducer Unit Int) 0 5
      (fun q => q)).isSome = true := rfl

/-- C4 amended: `concat` and `iterate` abort exactly when their documented
    restartability precondition fails (in every build, including when the
    metadata call itself panics); adding an *update* transition and
    `set_nstates` abort exactly on their documented slot/shrink violations
    in every build; but the *epsilon*-transition slot check aborts as
    claimed only in debug builds — in release builds only an out-of-range
    source still aborts (via the adjacency-table indexing), while an
    out-of-range target is accepted. -/
theorem C4_construction_aborts :
    (∀ (D X Y Z S1 S2 : Type) (m1 : TDef X D Y S1) (m2 : TDef Y D Z S2)
      (r2 e1 : Bool),
      m2.is_restartable = some r2 → m1.is_epsilon = some e1 →
      (concatT m1 m2).isSome = (r2 || e1))
    ∧ (∀ (X D S : Type) (m : TDef X D X S) (r : Bool),
      m.is_restartable = some r → (iterateT m).isSome = r)
    ∧ (∀ (D Q : Type) (m : DataTransducer D Q) (s t : Nat) (g : D → Bool)
      (f : D → Q → Q),
      (m.add_transition1 s t g f).isSome =
        (decide (s < m.states.length) && decide (t < m.states.length)))
    ∧ (∀ (D Q : Type) (m : DataTransducer D Q) (s1 s2 t : Nat)
      (g : D → Bool) (f : D → Q → Q → Q),
      (m.add_transition2 s1 s2 t g f).isSome =
        (decide (s1 < m.states.length) && decide (s2 < m.states.length) &&
          decide (t < m.states.length)))
    ∧ (∀ (D Q : Type) (m : DataTransducer D Q) (s t : Nat) (g : D → Bool),
      (m.add_iden s t g).isSome =
        (decide (s < m.states.length) && decide (t < m.states.length)))
    ∧ (∀ (D Q : Type) (m : DataTransducer D Q) (n : Nat),
      (m.set_nstates n).isSome = decide (m.states.length ≤ n))
    ∧ (∀ (D Q : Type) (m : DataTransducer D Q) (s t : Nat) (f : Q → Q),
      m.states.length = m.eps_out.length →
      (DataTransducer.add_epsilon1 true m s t f).isSome =
        (decide (s < m.states.length) && decide (t < m.states.length)))
    ∧ (∀ (D Q : Type) (m : DataTransducer D Q) (s t : Nat) (f : Q → Q),
      (DataTransducer.add_epsilon1 false m s t f).isSome =
        decide (s < m.eps_out.length))
    ∧ (∀ (D Q : Type) (m : DataTransducer D Q) (s1 s2 t : Nat)
      (f : Q → Q → Q),
      m.states.length = m.eps_out.length →
      (DataTransducer.add_epsilon2 true m s1 s2 t f).isSome =
        (decide (s1 < m.states.length) && decide (s2 < m.states.length) &&
          decide (t < m.states.length)))
    ∧ (∀ (D Q : Type) (m : DataTransducer D Q) (s1 s2 t : Nat)
      (f : Q → Q → Q),
      (DataTransducer.add_epsilon2 false m s1 s2 t f).isSome =
        (decide (s1 < m.eps_out.length) && decide (s2 < m.eps_out.length))) := by
  refine ⟨?_, ?_, ?_, ?_, ?_, ?_, ?_, ?_, ?_, ?_⟩
  · intro D X Y Z S1 S2 m1 m2 r2 e1 h2 h1
    cases r2 <;> cases e1 <;> simp [concatT, sorM, h1, h2]
  · intro X D S m r h
    cases r <;> simp [iterateT, h]
  · intro D Q m s t g f
    simp only [DataTransducer.add_transition1,
      DataTransducer.add_transition_core, DataTransducer.trans_precond,
      Transition.all_ids, Transition.source_ids, Transition.target_id]
    split <;> simp_all
  · intro D Q m s1 s2 t g f
    simp only [DataTransducer.add_transition2,
      DataTransducer.add_transition_core, DataTransducer.trans_precond,
      Transition.all_ids, Transition.source_ids, Transition.target_id]
    split <;> simp_all [Bool.and_assoc]
  · intro D Q m s t g
    simp only [DataTransducer.add_iden, DataTransducer.add_transition1,
      DataTransducer.add_transition_core, DataTransducer.trans_precond,
      Transition.all_ids, Transition.source_ids, Transition.target_id]
    split <;> simp_all
  · intro D Q m n
    simp only [DataTransducer.set_nstates]
    split <;> simp_all
  · intro D Q m s t f hlen
    simp only [DataTransducer.add_epsilon1, DataTransducer.add_epsilon_core,
      DataTransducer.trans_precond, Transition.all_ids,
      Transition.source_ids, Transition.target_id, ← hlen]
    by_cases hs : s < m.states.length <;> by_cases ht : t < m.states.length <;>
      simp_all
  · intro D Q m s t f
    by_cases hs : s < m.eps_out.length <;>
      simp [DataTransducer.add_epsilon1, DataTransducer.add_epsilon_core,
        Transition.source_ids, hs]
  · intro D Q m s1 s2 t f hlen
    simp only [DataTransducer.add_epsilon2, DataTransducer.add_epsilon_core,
      DataTransducer.trans_precond, Transition.all_ids,
      Transition.source_ids, Transition.target_id, ← hlen]
    by_cases h1 : s1 < m.states.length <;>
      by_cases h2 : s2 < m.states.length <;>
      by_cases ht : t < m.states.length <;> simp_all
  · intro D Q m s1 s2 t f
    by_cases h1 : s1 < m.eps_out.length <;>
      by_cases h2 : s2 < m.eps_out.length <;>
      simp [DataTransducer.add_epsilon2, DataTransducer.add_epsilon_core,
        Transition.source_ids, h1, h2]

/-- Witness for C4_construction_aborts: the concat check at scenario B's
    atoms, and the debug-build epsilon slot check on a fresh automaton. -/
theorem C4_construction_aborts_witness :
    (concatT mB1 mB2).isSome = (true || false)
    ∧ (DataTransducer.add_epsilon1 true
        (DataTransducer.new : DataTransducer Unit Int) 0 5
        (fun q => q)).isSome =
      (decide (0 < 2) && decide (5 < 2)) :=
  ⟨C4_construction_aborts.1 Char Int Int Int (Ext Int) (Ext Int)
      mB1 mB2 true false rfl rfl,
   C4_construction_aborts.2.2.2.2.2.2.1 Unit Int DataTransducer.new 0 5
      (fun q => q) rfl⟩

/-! ## Concrete automata for the automaton-level claims -/

open DataTransducer in
/-- The repository's `test_loop_1` automaton (src/state_machine.rs): three
    slots with an epsilon cycle slot0 → slot1 → slot2 → slot0 (constant-0
    actions), built through the public API. -/
def cycleM : DataTransducer Unit Int :=
  ((((DataTransducer.new.set_nstates 3).bind
    (fun m => add_epsilon1 true m 0 1 (fun _ => 0))).bind
    (fun m => add_epsilon1 true m 1 2 (fun _ => 0))).bind
    (fun m => add_epsilon1 true m 2 0 (fun _ => 0))).getD DataTransducer.new

open DataTransducer in
/-- A two-slot automaton with a single identity epsilon transition from the
    initial slot to the final slot, built through the public API. -/
def idenM : DataTransducer Unit Int :=
  (add_epsilon1 true DataTransducer.new 0 1 (fun q => q)).getD
    DataTransducer.new

/-- Sanity: both machines are built without any constructor aborting. -/
example :
    (((DataTransducer.new.set_nstates 3).bind
      (fun m => DataTransducer.add_epsilon1 true m 0 1 (fun (_ : Int) => 0))).bind
      (fun m => DataTransducer.add_epsilon1 true m 1 2 (fun _ => 0))).bind
      (fun m => DataTransducer.add_epsilon1 (D := Unit) true m 2 0 (fun _ => 0))
      = some cycleM := rfl

example :
    DataTransducer.add_epsilon1 (D := Unit) true DataTransducer.new 0 1
      (fun (q : Int) => q) = some idenM := rfl

/-! ## Claim theorems: the automaton -/

/-- C7: the epsilon-closure worklist loop terminates for every automaton
    (the provided fuel always empties the worklist), and on the concrete
    three-slot epsilon cycle, feeding any non-`Absent` value (`One q` for
    any `q`, or `Many`) into the cycle via `init` drives every slot on the
    cycle to `Conflict`. -/
theorem C7_eps_closure_termination_and_cycle :
    (∀ (D Q : Type) (m : DataTransducer D Q),
      (DataTransducer.eps_closure_run m).2.2 = [])
    ∧ (∀ q : Int,
        ((cycleM.init (Ext.one q)).1.states = [Ext.many, Ext.many, Ext.many]))
    ∧ ((cycleM.init Ext.many).1.states = [Ext.many, Ext.many, Ext.many]) := by
  refine ⟨fun D Q m => ?_, fun q => ?_, ?_⟩
  · exact epsRun_reaches_empty m.epsilons m.eps_out _ m.states _ _
      (by simp) (Nat.lt_succ_self _)
  · rfl
  · rfl

/-- C1 as stated fails on the automaton: `eval_epsilons` forgets the
    contributions recorded by earlier calls (its `trans_vals` cache is local
    to each call), so a second `init` re-joins every epsilon transition's
    old contribution.  On the two-slot identity-epsilon machine, after
    `init(One 1)` (which returns `One 1`), the call `init(Absent)` returns
    `Conflict` and corrupts the final slot to `Conflict` — violating the
    documented INIT PROPERTY (src/interface.rs) that `init(Ext::None)` has
    no effect and returns `None`. -/
theorem C1_init_absent_violation :
    (idenM.init (Ext.one 1)).2 = Ext.one 1
    ∧ ((idenM.init (Ext.one 1)).1.init Ext.none).2 = Ext.many
    ∧ ((idenM.init (Ext.one 1)).1.init Ext.none).1.states
        = [Ext.one 1, Ext.many] := by
  exact ⟨rfl, rfl, rfl⟩

/-- C8: `is_restartable` on `parcomp` and on the automaton evaluator is
    `unimplemented!()` — the call never hands any boolean to the caller
    (modelled as `Option.none`, never `some b`). -/
theorem C8_is_restartable_unimplemented :
    (∀ (I D O1 O2 S1 S2 : Type) (m1 : TDef I D O1 S1) (m2 : TDef I D O2 S2),
      (parcompT m1 m2).is_restartable = Option.none)
    ∧ (∀ (D Q : Type) (m : DataTransducer D Q),
      m.is_restartable = Option.none) :=
  ⟨fun _ _ _ _ _ _ _ _ => rfl, fun _ _ _ => rfl⟩

end DataTransducers
